import Mathlib

/-!
Verification of the WoundCareSim backend core: the stage state machine
(`app/core/state_machine.py`), the evaluation coordinator
(`app/core/coordinator.py`), the session manager
(`app/services/session_manager.py`) and the stage-submission orchestration
(`app/main.py`), shallowly embedded in Lean.  Python floats are modelled as
rationals, Python dicts as insertion-ordered association lists, and raised
exceptions as `Except.error`.
-/

/-! ## State machine (`app/core/state_machine.py`) -/

/-- The `Step` enumeration of procedure stages. -/
inductive Step where
  | HISTORY
  | ASSESSMENT
  | CLEANING
  | DRESSING
  | COMPLETED
deriving DecidableEq, Repr

/-- `Step.value`: the string value carried by each enum member. -/
def Step.value : Step → String
  | .HISTORY => "history"
  | .ASSESSMENT => "assessment"
  | .CLEANING => "cleaning"
  | .DRESSING => "dressing"
  | .COMPLETED => "completed"

/-- The `Step(...)` enum constructor: maps a stored string back to the enum
member, `none` when the string is no member's value (Python raises
`ValueError` there). -/
def stepOfValue (s : String) : Option Step :=
  if s = "history" then some .HISTORY
  else if s = "assessment" then some .ASSESSMENT
  else if s = "cleaning" then some .CLEANING
  else if s = "dressing" then some .DRESSING
  else if s = "completed" then some .COMPLETED
  else none

/-- `next_step`: the `_VALID_TRANSITIONS` dict lookup.  The dict holds the
four forward transitions; a key not in the dict (only `COMPLETED`) raises
`ValueError`, modelled as `Except.error`. -/
def next_step (current_step : Step) : Except String Step :=
  match current_step with
  | .HISTORY => .ok .ASSESSMENT
  | .ASSESSMENT => .ok .CLEANING
  | .CLEANING => .ok .DRESSING
  | .DRESSING => .ok .COMPLETED
  | .COMPLETED => .error ("No next step for " ++ Step.COMPLETED.value)

/-- The per-stage action vocabulary (the `mapping` dict literal inside
`validate_action`). -/
def action_vocab : Step → List String
  | .HISTORY => ["voice_transcript", "question_asked"]
  | .ASSESSMENT => ["mcq_answer", "visual_assessment"]
  | .CLEANING => ["action_handwash", "action_clean", "pick_material"]
  | .DRESSING => ["action_dress", "action_secure_dressing"]
  | .COMPLETED => []

/-- `validate_action`: `mapping.get(step, set())` membership test.  The
argument is `Option Step`: `none` stands for any value that is not a `Step`
member, for which the `.get` default yields the empty set. -/
def validate_action (step : Option Step) (event_type : String) : Bool :=
  let allowed := match step with
    | some s => action_vocab s
    | none => []
  allowed.contains event_type

/-! ## Evaluation coordinator (`app/core/coordinator.py`)

A Python evaluation dict is modelled as a record of optional fields; a
`none` field is a missing dict key, read back through `.get` defaults.
Floats are rationals; `statistics.mean` is the exact arithmetic mean;
`round(x, 2)` is round-half-to-even at two decimal places. -/

/-- One evaluator verdict dict, every field optional as in a Python dict. -/
structure Verdict where
  agent : Option String
  score : Option ℚ
  confidence : Option ℚ
  rationale : Option String
  suggested_actions : Option (List String)
deriving DecidableEq, Repr

/-- `float(ev.get("score", 0.0))`. -/
def scoreOf (ev : Verdict) : ℚ := ev.score.getD 0

/-- `ev.get("agent", "unknown")`. -/
def agentOf (ev : Verdict) : String := ev.agent.getD "unknown"

/-- `ev.get("confidence", 0.0)`. -/
def confOf (ev : Verdict) : ℚ := ev.confidence.getD 0

/-- Insertion-ordered Python dict assignment `m[k] = v`: an existing key
keeps its position and takes the new value, a fresh key is appended. -/
def dictInsert {α : Type} : List (String × α) → String → α → List (String × α)
  | [], k, v => [(k, v)]
  | p :: rest, k, v =>
      if p.1 == k then (k, v) :: rest else p :: dictInsert rest k v

/-- Python dict lookup `m.get(k)`. -/
def dictGet? {α : Type} (m : List (String × α)) (k : String) : Option α :=
  (m.find? (fun p => p.1 == k)).map (·.2)

/-- `statistics.mean` on a list of rationals. -/
def mean (l : List ℚ) : ℚ := l.sum / l.length

/-- Round a rational to the nearest integer, ties to even
(Python `round` on a one-argument call). -/
def roundHalfEven (q : ℚ) : ℤ :=
  if q - ⌊q⌋ = 1 / 2 then (if 2 ∣ ⌊q⌋ then ⌊q⌋ else ⌊q⌋ + 1)
  else round q

/-- Python `round(x, 2)`. -/
def pyRound2 (q : ℚ) : ℚ := (roundHalfEven (q * 100) : ℚ) / 100

/-- The coordinator's output dict.  `confidences` is `none` when the dict
carries no `confidences` key at all (the empty-input branch). -/
structure AggregateResult where
  final_score : ℚ
  final_feedback : String
  actions : List String
  confidences : Option (List (String × ℚ))
deriving DecidableEq, Repr

/-- The accumulator variables of the `for ev in evaluations` loop. -/
structure LoopState where
  scores : List ℚ
  actions : List String
  rationales : List String
  confidences : List (String × ℚ)
deriving DecidableEq, Repr

/-- One iteration of the loop body in `coordinate`. -/
def coordStep (st : LoopState) (ev : Verdict) : LoopState :=
  let score := scoreOf ev
  let agent := agentOf ev
  let confidences := dictInsert st.confidences agent (confOf ev)
  let actions := match ev.suggested_actions with
    | some l => if l ≠ [] then st.actions ++ l else st.actions
    | none => st.actions
  let rationales := match ev.rationale with
    | some r =>
        if r ≠ "" then st.rationales ++ ["[" ++ agent ++ "] " ++ r]
        else st.rationales
    | none => st.rationales
  { scores := st.scores ++ [score], actions := actions,
    rationales := rationales, confidences := confidences }

/-- `coordinate(evaluations)`. -/
def coordinate (evaluations : List Verdict) : AggregateResult :=
  if evaluations = [] then
    { final_score := 0, final_feedback := "No evaluations provided",
      actions := [], confidences := none }
  else
    let st := evaluations.foldl coordStep ⟨[], [], [], []⟩
    let final_score := if st.scores ≠ [] then mean st.scores else 0
    let final_feedback :=
      if st.rationales ≠ [] then String.intercalate " | " st.rationales
      else "No feedback"
    { final_score := pyRound2 final_score, final_feedback := final_feedback,
      actions := st.actions, confidences := some st.confidences }

example :
    coordinate [⟨some "communication", some (7/10), some (8/10), some "ok", none⟩,
                ⟨some "clinical", some (9/10), some (9/10), some "great", none⟩] =
    { final_score := 4/5, final_feedback := "[communication] ok | [clinical] great",
      actions := [],
      confidences := some [("communication", 8/10), ("clinical", 9/10)] } := by
  simp [coordinate, coordStep, scoreOf, agentOf, confOf, dictInsert, mean]
  norm_num [pyRound2, roundHalfEven, round_eq]
  rfl

/-- The feedback fragment a verdict contributes: its rationale prefixed
with the agent identifier, `none` when the rationale is missing or empty
(the loop's `if rationale:` truthiness test). -/
def rationaleEntry (ev : Verdict) : Option String :=
  match ev.rationale with
  | some r => if r ≠ "" then some ("[" ++ agentOf ev ++ "] " ++ r) else none
  | none => none

/-- The confidence dict built by the loop: successive dict assignments
of each agent's reported confidence, starting from the empty dict. -/
def confAgg (evaluations : List Verdict) : List (String × ℚ) :=
  evaluations.foldl (fun m e => dictInsert m (agentOf e) (confOf e)) []

/-- The keys of a Python dict in insertion order: each string listed at its
first occurrence. -/
def firstOccurrences (l : List String) : List String :=
  l.foldl (fun acc a => if a ∈ acc then acc else acc ++ [a]) []

/-- Replace every missing dict field by the default `coordinate` reads in
its place (`unknown`, `0.0`, absent rationale and action list). -/
def fillDefaults (ev : Verdict) : Verdict :=
  { agent := some (agentOf ev), score := some (scoreOf ev),
    confidence := some (confOf ev),
    rationale := some (ev.rationale.getD ""),
    suggested_actions := some (ev.suggested_actions.getD []) }

/-! ## Session manager (`app/services/session_manager.py`) -/

/-- One session dict: scenario id, student id, the current step stored as
its string value, and the log list initialised empty by `create_session`. -/
structure Session where
  scenario_id : String
  student_id : String
  current_step : String
  logs : List (String × AggregateResult)
deriving DecidableEq, Repr

/-- The `SessionManager` object: its `self.sessions` dict. -/
structure SessionManager where
  sessions : List (String × Session)
deriving DecidableEq, Repr

/-- `SessionManager.create_session`: allocates `sess_(n+1)`, stores a fresh
session at stage HISTORY with an empty log, returns the id. -/
def SessionManager.create_session (m : SessionManager)
    (scenario_id student_id : String) : String × SessionManager :=
  let session_id := "sess_" ++ toString (m.sessions.length + 1)
  (session_id,
   ⟨dictInsert m.sessions session_id
      { scenario_id := scenario_id, student_id := student_id,
        current_step := Step.HISTORY.value, logs := [] }⟩)

/-- `SessionManager.get_session`. -/
def SessionManager.get_session (m : SessionManager) (session_id : String) :
    Option Session :=
  dictGet? m.sessions session_id

/-- `SessionManager.advance_step`: `none` when the session is absent or
`next_step` raises (the `except` branch); otherwise mutates the stored
session's `current_step` to the successor's value and returns it.  The
`Step(...)` conversion happens before the `try`, so an invalid stored step
value raises out of the method (`Except.error`). -/
def SessionManager.advance_step (m : SessionManager) (session_id : String) :
    Except String (Option String × SessionManager) :=
  match dictGet? m.sessions session_id with
  | none => .ok (none, m)
  | some session =>
    match stepOfValue session.current_step with
    | none => .error ("ValueError: " ++ session.current_step ++ " is not a valid Step")
    | some current_step =>
      match next_step current_step with
      | .ok new_step =>
          .ok (some new_step.value,
               ⟨dictInsert m.sessions session_id
                  { session with current_step := new_step.value }⟩)
      | .error _ => .ok (none, m)

/-- `n` successive `advance_step` calls on the same session id, stopping at
the first raised exception. -/
def advanceN (m : SessionManager) (session_id : String) :
    Nat → Except String SessionManager
  | 0 => .ok m
  | n + 1 =>
    match m.advance_step session_id with
    | .ok (_, m') => advanceN m' session_id n
    | .error e => .error e

/-! ## Stage-submission orchestration (`app/main.py`, `session_step`)

External collaborators are passed in as values: the session looked up for
the request, the outcome of the `retrieve_context` call (`Except.error` for
a raised retrieval exception), and the evaluator outputs from the request
body.  The response is `Except.error` for an HTTP error. -/

/-- The JSON body built by `session_step`; an `Option` field is a key the
handler only sets on some paths. -/
structure StepResponse where
  session_id : String
  current_step : String
  evaluation : AggregateResult
  next_step : Option String
  rag_context : Option (List String)
deriving DecidableEq, Repr

/-- `session_step` from `app/main.py`: 404 when the session is absent; a
failing retrieval is caught and degraded to the empty context; the
coordinator then aggregates the evaluator outputs, the log entry for the
current stage is appended, and when the stage has a successor the session
advances and the response carries `next_step`.  The response includes
`rag_context` only when it is truthy (a non-empty chunk list).
The log append stands in for the `session_manager.add_log` call, whose
method body is not part of the sources here.
Modelled from the spec: `add_log` appends the `(currentStage, aggregate)`
pair to the session's ordered log. -/
def session_step (session_id : String) (session : Option Session)
    (user_input : String) (retrieval : Except String (List String))
    (evaluator_outputs : List Verdict) :
    Except String (StepResponse × Session) :=
  match session with
  | none => .error "Session not found"
  | some session =>
    let cur_step := session.current_step
    let rag_context : Option (List String) :=
      if user_input ≠ "" then
        match retrieval with
        | .ok chunks => some chunks
        | .error _ => some []
      else none
    let agg := coordinate evaluator_outputs
    let logged := { session with logs := session.logs ++ [(cur_step, agg)] }
    let next_s : Option Step :=
      (stepOfValue cur_step).bind (fun c => (next_step c).toOption)
    let final := match next_s with
      | some n => { logged with current_step := n.value }
      | none => logged
    .ok ({ session_id := session_id, current_step := cur_step,
           evaluation := agg, next_step := next_s.map Step.value,
           rag_context := match rag_context with
             | some chunks => if chunks ≠ [] then some chunks else none
             | none => none },
         final)

/-! ## Theorems -/

/-- **C1.** Four successive `next_step` calls starting at HISTORY yield
ASSESSMENT, CLEANING, DRESSING, COMPLETED in that order, and the fifth
call (the successor of COMPLETED) raises rather than returning a stage:
there is no wraparound and no skipping. -/
theorem C1_successor_chain :
    next_step .HISTORY = .ok .ASSESSMENT ∧
    next_step .ASSESSMENT = .ok .CLEANING ∧
    next_step .CLEANING = .ok .DRESSING ∧
    next_step .DRESSING = .ok .COMPLETED ∧
    (∃ msg, next_step .COMPLETED = .error msg) ∧
    (∀ s, next_step s ≠ .ok .HISTORY) := by
  refine ⟨rfl, rfl, rfl, rfl, ⟨_, rfl⟩, ?_⟩
  intro s
  cases s <;> simp [next_step]

/-- **C5.** `validate_action` is a total boolean lookup: a value that is
not a `Step` member (`none`) is denied by default, COMPLETED permits no
action at all, every non-terminal stage has a non-empty vocabulary, and
`voice_transcript` is allowed at HISTORY while `mcq_answer` is not
allowed at CLEANING. -/
theorem C5_validate_action_vocabulary :
    (∀ event_type, validate_action none event_type = false) ∧
    (∀ event_type, validate_action (some .COMPLETED) event_type = false) ∧
    action_vocab .HISTORY ≠ [] ∧
    action_vocab .ASSESSMENT ≠ [] ∧
    action_vocab .CLEANING ≠ [] ∧
    action_vocab .DRESSING ≠ [] ∧
    validate_action (some .HISTORY) "voice_transcript" = true ∧
    validate_action (some .CLEANING) "mcq_answer" = false := by
  refine ⟨fun e => rfl, fun e => rfl, ?_, ?_, ?_, ?_, ?_, ?_⟩ <;> decide

/-- The loop's `scores` accumulator collects every verdict's score in
input order. -/
theorem foldl_coordStep_scores (evaluations : List Verdict) (st : LoopState) :
    (evaluations.foldl coordStep st).scores = st.scores ++ evaluations.map scoreOf := by
  induction evaluations generalizing st with
  | nil => simp
  | cons ev rest ih =>
      simp only [List.foldl_cons, List.map_cons, ih, coordStep]
      simp

/-- The loop's `actions` accumulator concatenates every verdict's
suggested-action list in input order (the truthiness test skips only
absent or empty lists, which contribute nothing). -/
theorem foldl_coordStep_actions (evaluations : List Verdict) (st : LoopState) :
    (evaluations.foldl coordStep st).actions =
      st.actions ++ (evaluations.map (fun e => e.suggested_actions.getD [])).flatten := by
  induction evaluations generalizing st with
  | nil => simp
  | cons ev rest ih =>
      simp only [List.foldl_cons, List.map_cons, List.flatten_cons, ih, coordStep]
      cases h : ev.suggested_actions with
      | none => simp
      | some l =>
          by_cases hl : l = [] <;> simp [hl]

/-- The loop's `rationales` accumulator collects exactly the non-empty
prefixed rationales in input order. -/
theorem foldl_coordStep_rationales (evaluations : List Verdict) (st : LoopState) :
    (evaluations.foldl coordStep st).rationales =
      st.rationales ++ evaluations.filterMap rationaleEntry := by
  induction evaluations generalizing st with
  | nil => simp
  | cons ev rest ih =>
      simp only [List.foldl_cons, List.filterMap_cons, ih, coordStep, rationaleEntry]
      cases h : ev.rationale with
      | none => simp
      | some r =>
          by_cases hr : r = "" <;> simp [hr]

/-- The loop's `confidences` accumulator is the fold of dict assignments
over the verdicts. -/
theorem foldl_coordStep_confidences (evaluations : List Verdict) (st : LoopState) :
    (evaluations.foldl coordStep st).confidences =
      evaluations.foldl (fun m e => dictInsert m (agentOf e) (confOf e)) st.confidences := by
  induction evaluations generalizing st with
  | nil => rfl
  | cons ev rest ih =>
      simp only [List.foldl_cons, ih, coordStep]

/-- Lookup after a dict assignment: the assigned key reads the new value,
every other key is untouched. -/
theorem dictGet?_dictInsert {α : Type} (m : List (String × α)) (k k' : String) (v : α) :
    dictGet? (dictInsert m k v) k' = if k' = k then some v else dictGet? m k' := by
  induction m with
  | nil =>
      by_cases h : k' = k
      · subst h; simp [dictInsert, dictGet?, List.find?]
      · have hb : (k == k') = false := by simp [Ne.symm h]
        simp [dictInsert, dictGet?, List.find?, hb, h]
  | cons p rest ih =>
      by_cases hp : p.1 = k
      · have hb : (p.1 == k) = true := by simp [hp]
        by_cases h : k' = k
        · subst h
          simp [dictInsert, dictGet?, List.find?, hb]
        · have hb2 : (k == k') = false := by simp [Ne.symm h]
          have hb3 : (p.1 == k') = false := by simp [hp, Ne.symm h]
          simp [dictInsert, dictGet?, List.find?, hb, hb2, hb3, h]
      · have hb : (p.1 == k) = false := by simp [hp]
        by_cases hq : p.1 = k'
        · have hq' : ¬ k' = k := fun he => hp (hq.trans he)
          have hb2 : (p.1 == k') = true := by simp [hq]
          simp [dictInsert, dictGet?, List.find?, hb, hb2, hq']
        · have hb2 : (p.1 == k') = false := by simp [hq]
          simp only [dictInsert, hb, Bool.false_eq_true, if_false, dictGet?,
            List.find?, hb2]
          simpa only [dictGet?] using ih

/-- A dict assignment leaves the key list unchanged when the key is
present and appends it when fresh. -/
theorem dictInsert_keys {α : Type} (m : List (String × α)) (k : String) (v : α) :
    (dictInsert m k v).map Prod.fst =
      if k ∈ m.map Prod.fst then m.map Prod.fst else m.map Prod.fst ++ [k] := by
  induction m with
  | nil => simp [dictInsert]
  | cons p rest ih =>
      simp only [dictInsert]
      by_cases hp : p.1 = k
      · simp [hp]
      · simp only [beq_eq_false_iff_ne, ne_eq, hp, not_false_eq_true, if_neg,
          beq_iff_eq, List.map_cons, ih]
        by_cases hk : k ∈ rest.map Prod.fst
        · simp [hk, Ne.symm hp]
        · simp [hk, Ne.symm hp]

/-- Folding dict assignments over the verdicts: a key reads the confidence
of the last verdict carrying that agent identifier, and falls back to the
initial dict when no verdict does. -/
theorem foldl_dictInsert_get (evaluations : List Verdict)
    (m0 : List (String × ℚ)) (k : String) :
    dictGet? (evaluations.foldl (fun m e => dictInsert m (agentOf e) (confOf e)) m0) k =
      Option.elim (evaluations.reverse.find? (fun e => agentOf e == k))
        (dictGet? m0 k) (fun e => some (confOf e)) := by
  induction evaluations generalizing m0 with
  | nil => simp
  | cons ev rest ih =>
      simp only [List.foldl_cons, ih, List.reverse_cons, List.find?_append]
      cases hf : rest.reverse.find? (fun e => agentOf e == k) with
      | some e => simp [Option.or]
      | none =>
          simp only [Option.or, Option.elim, dictGet?_dictInsert]
          cases hb : (agentOf ev == k) with
          | true =>
              have : k = agentOf ev := (beq_iff_eq.mp hb).symm
              simp [List.find?, hb, this]
          | false =>
              have : ¬ k = agentOf ev := fun he => by
                simp [he] at hb
              simp [List.find?, hb, this]

/-- Folding dict assignments over the verdicts keeps one key per agent
identifier, at its first occurrence, in input order. -/
theorem foldl_dictInsert_keys (evaluations : List Verdict)
    (m0 : List (String × ℚ)) :
    (evaluations.foldl (fun m e => dictInsert m (agentOf e) (confOf e)) m0).map Prod.fst =
      evaluations.foldl (fun acc e => if agentOf e ∈ acc then acc else acc ++ [agentOf e])
        (m0.map Prod.fst) := by
  induction evaluations generalizing m0 with
  | nil => rfl
  | cons ev rest ih =>
      simp only [List.foldl_cons, ih, dictInsert_keys]

/-- **C3 (counterexample).** `coordinate` on the empty list returns a dict
with no `confidences` entry at all: the confidence map is absent, not
present-and-empty as the claim states. -/
theorem C3_counterexample :
    (coordinate []).confidences = none ∧ (coordinate []).confidences ≠ some [] := by
  constructor
  · rfl
  · intro h
    have hn : (coordinate []).confidences = none := rfl
    rw [hn] at h
    exact Option.noConfusion h

/-- **C3 (amended).** `coordinate` on the empty list returns, without
raising, score 0.0, the sentinel feedback "No evaluations provided", an
empty suggested-action list, and no confidence-map entry (the
`confidences` key is absent from the returned dict). -/
theorem C3_empty_input_result :
    coordinate [] =
      { final_score := 0, final_feedback := "No evaluations provided",
        actions := [], confidences := none } := rfl

/-- **C4.** For every non-empty verdict list the final score is the
arithmetic mean of all verdict scores rounded to two decimal places, and
aggregating (communication, 0.7) with (clinical, 0.9) yields 0.80. -/
theorem C4_final_score_is_rounded_mean :
    (∀ evaluations : List Verdict, evaluations ≠ [] →
        (coordinate evaluations).final_score =
          pyRound2 (mean (evaluations.map scoreOf))) ∧
    (coordinate [⟨some "communication", some (7/10), some (8/10), some "ok", none⟩,
                 ⟨some "clinical", some (9/10), some (9/10), some "great", none⟩]).final_score
      = 0.80 := by
  constructor
  · intro evs h
    simp only [coordinate, if_neg h]
    rw [foldl_coordStep_scores]
    have hne : evs.map scoreOf ≠ [] := by simpa [List.map_eq_nil_iff] using h
    simp [hne]
  · simp [coordinate, coordStep, scoreOf, agentOf, confOf, dictInsert, mean]
    norm_num [pyRound2, roundHalfEven, round_eq]

/-- Witness for C4 at a concrete one-verdict list. -/
theorem C4_witness :
    ([⟨some "communication", some (7/10), some (8/10), some "ok", none⟩] : List Verdict) ≠ [] ∧
    (coordinate [⟨some "communication", some (7/10), some (8/10), some "ok", none⟩]).final_score =
      pyRound2 (mean ([(⟨some "communication", some (7/10), some (8/10), some "ok", none⟩ : Verdict)].map scoreOf)) :=
  ⟨by decide, C4_final_score_is_rounded_mean.1 _ (by decide)⟩

/-- **C6.** For every non-empty verdict list the final feedback joins the
non-empty rationales, each prefixed with its agent identifier in square
brackets, with the separator " | " in input order; when no verdict carries
a non-empty rationale the sentinel "No feedback" is substituted. -/
theorem C6_final_feedback_joined_rationales (evaluations : List Verdict)
    (h : evaluations ≠ []) :
    (coordinate evaluations).final_feedback =
      if evaluations.filterMap rationaleEntry = [] then "No feedback"
      else String.intercalate " | " (evaluations.filterMap rationaleEntry) := by
  simp only [coordinate, if_neg h]
  rw [foldl_coordStep_rationales]
  simp only [List.nil_append]
  by_cases hr : evaluations.filterMap rationaleEntry = [] <;> simp [hr]

/-- Witness for C6 at a concrete one-verdict list. -/
theorem C6_witness :
    ([⟨some "communication", some (7/10), some (8/10), some "ok", none⟩] : List Verdict) ≠ [] ∧
    (coordinate [⟨some "communication", some (7/10), some (8/10), some "ok", none⟩]).final_feedback =
      if ([(⟨some "communication", some (7/10), some (8/10), some "ok", none⟩ : Verdict)].filterMap rationaleEntry) = []
      then "No feedback"
      else String.intercalate " | "
        ([(⟨some "communication", some (7/10), some (8/10), some "ok", none⟩ : Verdict)].filterMap rationaleEntry) :=
  ⟨by decide, C6_final_feedback_joined_rationales _ (by decide)⟩

/-- **C7.** For every non-empty batch the result's confidence map is the
fold of dict assignments over the verdicts; a key reads the confidence of
the last verdict with that agent identifier (last write wins, no
averaging), and the keys appear in input order of first occurrence. -/
theorem C7_confidence_map_last_write_wins :
    (∀ evaluations : List Verdict, evaluations ≠ [] →
        (coordinate evaluations).confidences = some (confAgg evaluations)) ∧
    (∀ evaluations : List Verdict, ∀ k,
        dictGet? (confAgg evaluations) k =
          (evaluations.reverse.find? (fun e => agentOf e == k)).map confOf) ∧
    (∀ evaluations : List Verdict,
        (confAgg evaluations).map Prod.fst = firstOccurrences (evaluations.map agentOf)) := by
  refine ⟨?_, ?_, ?_⟩
  · intro evs h
    simp only [coordinate, if_neg h, confAgg]
    rw [foldl_coordStep_confidences]
  · intro evs k
    rw [confAgg, foldl_dictInsert_get]
    cases evs.reverse.find? (fun e => agentOf e == k) <;> simp [dictGet?]
  · intro evs
    rw [confAgg, foldl_dictInsert_keys]
    simp [firstOccurrences, List.foldl_map]

/-- Witness for C7 at a concrete batch with a repeated agent identifier. -/
theorem C7_witness :
    ([⟨some "communication", none, some (1/2), none, none⟩,
      ⟨some "communication", none, some (3/4), none, none⟩] : List Verdict) ≠ [] ∧
    (coordinate [⟨some "communication", none, some (1/2), none, none⟩,
                 ⟨some "communication", none, some (3/4), none, none⟩]).confidences =
      some (confAgg [⟨some "communication", none, some (1/2), none, none⟩,
                     ⟨some "communication", none, some (3/4), none, none⟩]) :=
  ⟨by decide, C7_confidence_map_last_write_wins.1 _ (by decide)⟩

/-- **C8.** For every verdict list, the aggregate's suggested-action list
is the concatenation of every verdict's suggested-action list, preserving
per-verdict order and input order across verdicts, with no
deduplication. -/
theorem C8_actions_concatenated (evaluations : List Verdict) :
    (coordinate evaluations).actions =
      (evaluations.map (fun e => e.suggested_actions.getD [])).flatten := by
  by_cases h : evaluations = []
  · subst h; rfl
  · simp only [coordinate, if_neg h]
    rw [foldl_coordStep_actions]
    simp

/-- Each step of the loop reads a missing field exactly as its default. -/
theorem coordStep_fillDefaults (st : LoopState) (ev : Verdict) :
    coordStep st (fillDefaults ev) = coordStep st ev := by
  obtain ⟨a, s, c, r, sa⟩ := ev
  cases r <;> cases sa <;> rfl

/-- **C10.** `coordinate` treats a missing field as its default — score
0.0, agent "unknown", confidence 0.0, no actions and no rationale — and a
batch of one all-missing verdict aggregates, without raising, to score
0.0, feedback "No feedback", no actions, and confidence map
(unknown, 0.0). -/
theorem C10_missing_fields_use_defaults :
    (∀ evaluations : List Verdict,
        coordinate (evaluations.map fillDefaults) = coordinate evaluations) ∧
    coordinate [{ agent := none, score := none, confidence := none,
                  rationale := none, suggested_actions := none }] =
      { final_score := 0, final_feedback := "No feedback", actions := [],
        confidences := some [("unknown", 0)] } := by
  constructor
  · intro evs
    by_cases h : evs = []
    · subst h; rfl
    · have hm : evs.map fillDefaults ≠ [] := by simpa [List.map_eq_nil_iff] using h
      simp only [coordinate, if_neg h, if_neg hm]
      rw [List.foldl_map]
      have hstep : (fun (st : LoopState) (e : Verdict) => coordStep st (fillDefaults e)) = coordStep := by
        funext st e
        exact coordStep_fillDefaults st e
      rw [hstep]
  · simp [coordinate, coordStep, scoreOf, agentOf, confOf, dictInsert, mean]
    norm_num [pyRound2, roundHalfEven, round_eq]

/-- **C2 (counterexample).** After `create_session` and five successive
`advance_step` calls, the stored session is at COMPLETED with an EMPTY
log: `advance_step` takes no aggregate result and never appends a log
entry, so the claimed five log entries do not exist. -/
theorem C2_counterexample :
    advanceN ((SessionManager.mk []).create_session "scenario_1" "student_1").2 "sess_1" 5 =
      .ok (SessionManager.mk
        [("sess_1",
          { scenario_id := "scenario_1", student_id := "student_1",
            current_step := "completed", logs := [] })]) := rfl

/-- **C2 (amended).** `advance_step` on an existing session attempts the
successor of the current stage: on success it mutates the current stage to
the successor (leaving the log untouched) and returns it; on a session
already at COMPLETED it leaves the session unchanged and returns none
instead of raising.  It never appends to the log, so four calls after
`create_session` reach COMPLETED and a fifth is a no-op returning none,
with the log still empty. -/
theorem C2_advance_step_amended :
    (∀ (m : SessionManager) (sid : String) (session : Session),
        dictGet? m.sessions sid = some session →
        session.current_step = Step.COMPLETED.value →
        m.advance_step sid = .ok (none, m)) ∧
    (∀ (m : SessionManager) (sid : String) (session : Session) (current new : Step),
        dictGet? m.sessions sid = some session →
        stepOfValue session.current_step = some current →
        next_step current = .ok new →
        m.advance_step sid =
          .ok (some new.value,
            SessionManager.mk
              (dictInsert m.sessions sid { session with current_step := new.value }))) ∧
    advanceN ((SessionManager.mk []).create_session "scenario_1" "student_1").2 "sess_1" 4 =
      .ok (SessionManager.mk
        [("sess_1",
          { scenario_id := "scenario_1", student_id := "student_1",
            current_step := "completed", logs := [] })]) ∧
    (SessionManager.mk
        [("sess_1",
          { scenario_id := "scenario_1", student_id := "student_1",
            current_step := "completed", logs := [] })]).advance_step "sess_1" =
      .ok (none,
        SessionManager.mk
          [("sess_1",
            { scenario_id := "scenario_1", student_id := "student_1",
              current_step := "completed", logs := [] })]) := by
  refine ⟨?_, ?_, rfl, rfl⟩
  · intro m sid session h h2
    simp [SessionManager.advance_step, h, h2, stepOfValue, Step.value, next_step]
  · intro m sid session current new h h2 h3
    simp [SessionManager.advance_step, h, h2, h3]

/-- Witness for C2's amended theorem: the no-op branch at a concrete
COMPLETED session. -/
theorem C2_witness :
    dictGet? (SessionManager.mk
        [("sess_1",
          ({ scenario_id := "sc", student_id := "st",
             current_step := "completed", logs := [] } : Session))]).sessions "sess_1" =
      some ({ scenario_id := "sc", student_id := "st",
              current_step := "completed", logs := [] } : Session) ∧
    ({ scenario_id := "sc", student_id := "st",
       current_step := "completed", logs := [] } : Session).current_step =
      Step.COMPLETED.value ∧
    (SessionManager.mk
        [("sess_1",
          ({ scenario_id := "sc", student_id := "st",
             current_step := "completed", logs := [] } : Session))]).advance_step "sess_1" =
      .ok (none,
        SessionManager.mk
          [("sess_1",
            ({ scenario_id := "sc", student_id := "st",
               current_step := "completed", logs := [] } : Session))]) :=
  ⟨rfl, rfl,
   C2_advance_step_amended.1 _ "sess_1" _ rfl rfl⟩

/-- **C9.** A raised retrieval error does not abort the stage submission:
`session_step` behaves exactly as with an empty retrieved context, still
returns a 200 response whose evaluation is the coordinator aggregate of
the evaluator outputs, and still appends the stage's log entry. -/
theorem C9_retrieval_failure_degrades :
    ∀ (session_id : String) (session : Session) (user_input err : String)
      (evaluator_outputs : List Verdict),
      session_step session_id (some session) user_input (.error err) evaluator_outputs =
        session_step session_id (some session) user_input (.ok []) evaluator_outputs ∧
      ∃ resp final,
        session_step session_id (some session) user_input (.error err) evaluator_outputs =
          .ok (resp, final) ∧
        resp.evaluation = coordinate evaluator_outputs ∧
        final.logs = session.logs ++ [(session.current_step, coordinate evaluator_outputs)] := by
  intro sid session ui err evs
  refine ⟨rfl, ?_⟩
  refine ⟨_, _, rfl, rfl, ?_⟩
  simp only [session_step]
  cases hn : (stepOfValue session.current_step).bind (fun c => (next_step c).toOption) with
  | none => rfl
  | some n => rfl
